import Mathlib

set_option maxRecDepth 16000

/-!
Verification development for the casino-mobile rules engine.

The definitions below are a shallow embedding of the game-logic sources:

* `src/multiplayer/server/game-logic/shared-game-logic.js`
  (`initializeGame`, `getCapturableCards`, `canFinalizeStagingStack`,
  and the exported stub action handlers `handleTrail`, `handleCapture`, ...),
* `src/utils/actionDeterminer.ts` (`determineActions` and its helpers).

JavaScript arrays become `List`, objects become structures, the tagged union
of table occupants (loose card / build / temporary stack) becomes the sum
type `TableItem`, and `Math.random` is made explicit as a parameter
`r : Nat -> Nat` supplying the index chosen at each Fisher-Yates step
(the source draws `j = floor(random() * (i + 1))`, so `0 <= j <= i`;
the embedding is total and treats an out-of-range index as a no-swap,
which the source never produces).
-/

/-- The ten ranks of the 40-card deck: the source builds cards only from
`['A','2','3','4','5','6','7','8','9','10']`. -/
inductive Rank where
  | A | r2 | r3 | r4 | r5 | r6 | r7 | r8 | r9 | r10
deriving DecidableEq, Repr

/-- The four suits `['♠', '♥', '♦', '♣']`. -/
inductive Suit where
  | spades | hearts | diamonds | clubs
deriving DecidableEq, Repr

/-- `rankValue` from actionDeterminer.ts: `'A'` is 1, otherwise the parsed
numeric rank. -/
def rankValue : Rank → Nat
  | .A => 1
  | .r2 => 2
  | .r3 => 3
  | .r4 => 4
  | .r5 => 5
  | .r6 => 6
  | .r7 => 7
  | .r8 => 8
  | .r9 => 9
  | .r10 => 10

/-- The rank string as it appears in the source. -/
def rankStr : Rank → String
  | .A => "A"
  | .r2 => "2"
  | .r3 => "3"
  | .r4 => "4"
  | .r5 => "5"
  | .r6 => "6"
  | .r7 => "7"
  | .r8 => "8"
  | .r9 => "9"
  | .r10 => "10"

/-- The suit symbol as it appears in the source. -/
def suitStr : Suit → String
  | .spades => "♠"
  | .hearts => "♥"
  | .diamonds => "♦"
  | .clubs => "♣"

/-- A card object `{ suit, rank, value }` as constructed by
`initializeGame`. -/
structure Card where
  suit : Suit
  rank : Rank
  value : Nat
deriving DecidableEq, Repr

/-- All suits in source order. -/
def allSuits : List Suit := [.spades, .hearts, .diamonds, .clubs]

/-- All ranks in source order. -/
def allRanks : List Rank := [.A, .r2, .r3, .r4, .r5, .r6, .r7, .r8, .r9, .r10]

/-- The deck as built by the nested loops of `initializeGame`:
for each suit, for each rank, push `{suit, rank, value}` where the value is
1 for an ace and the numeric rank otherwise. -/
def freshDeck : List Card :=
  allSuits.flatMap (fun s => allRanks.map (fun r => { suit := s, rank := r, value := rankValue r }))

/-- One Fisher-Yates step `[deck[i], deck[j]] = [deck[j], deck[i]]`,
total on out-of-range indices (which the source never produces). -/
def swapIdx (l : List Card) (i j : Nat) : List Card :=
  match l[i]?, l[j]? with
  | some a, some b => (l.set i b).set j a
  | _, _ => l

/-- The shuffle loop of `initializeGame`:
`for (let i = deck.length - 1; i > 0; i--) { j = rand; swap i j }`.
`r i` is the random index drawn when the loop counter is `i`. -/
def fyLoop (r : Nat → Nat) : List Card → Nat → List Card
  | d, 0 => d
  | d, i + 1 => fyLoop r (swapIdx d (i + 1) (r (i + 1))) i

/-- The shuffled 40-card deck, parametric in the random draws. -/
def shuffledDeck (r : Nat → Nat) : List Card :=
  fyLoop r freshDeck (freshDeck.length - 1)

/-- The dealing loop of `initializeGame`:
ten iterations of `playerHands[0].push(deck.pop()); playerHands[1].push(deck.pop())`.
`deck.pop()` removes the last element. -/
def dealLoop : Nat → List Card × List Card × List Card → List Card × List Card × List Card
  | 0, s => s
  | n + 1, (d, h0, h1) =>
      dealLoop n
        (d.dropLast.dropLast,
         h0 ++ d.getLast?.toList,
         h1 ++ d.dropLast.getLast?.toList)

/-- A build on the table: `{ type: 'build', buildId, cards, value, owner,
isExtendable }`. -/
structure Build where
  buildId : String
  cards : List Card
  value : Nat
  owner : Nat
  isExtendable : Bool
deriving DecidableEq, Repr

/-- One staged card of a temporary stack, tagged with its origin
(`source: 'hand' | 'table'`). -/
structure StackCard where
  card : Card
  source : String
deriving DecidableEq, Repr

/-- A temporary (staging) stack:
`{ type: 'temporary_stack', stackId, cards, owner, totalValue }`. -/
structure TempStack where
  stackId : String
  cards : List StackCard
  owner : Nat
  totalValue : Nat
deriving DecidableEq, Repr

/-- The tagged union of table occupants, distinguished in the source by the
`type` field (a plain card object for a loose card, `'build'`,
`'temporary_stack'`). -/
inductive TableItem where
  | loose (card : Card)
  | build (b : Build)
  | tstack (s : TempStack)
deriving DecidableEq, Repr

/-- The cards physically embedded in one table item. -/
def TableItem.embeddedCards : TableItem → List Card
  | .loose c => [c]
  | .build b => b.cards
  | .tstack s => s.cards.map (fun sc => sc.card)

/-- The full game state returned by `initializeGame` in
shared-game-logic.js. `playerCaptures` is, per player, the list of capture
groups (each a list of cards). -/
structure GameState where
  deck : List Card
  playerHands : List (List Card)
  tableCards : List TableItem
  playerCaptures : List (List (List Card))
  currentPlayer : Nat
  round : Nat
  scores : List Nat
  gameOver : Bool
  winner : Option Nat
  lastCapturer : Option Nat
  scoreDetails : Option Unit
deriving DecidableEq, Repr

/-- `initializeGame()` from shared-game-logic.js: build the 40-card deck,
Fisher-Yates shuffle it (randomness is the parameter `r`), deal 10 cards
to each player alternately by popping from the deck, player 0 first. -/
def initializeGame (r : Nat → Nat) : GameState :=
  let deck := shuffledDeck r
  let dealt := dealLoop 10 (deck, [], [])
  { deck := dealt.1
    playerHands := [dealt.2.1, dealt.2.2]
    tableCards := []
    playerCaptures := [[], []]
    currentPlayer := 0
    round := 1
    scores := [0, 0]
    gameOver := false
    winner := none
    lastCapturer := none
    scoreDetails := none }

/-- `getCapturableCards(tableCards, handCard)` from shared-game-logic.js:
keep the loose cards whose rank equals the hand card's rank and the builds
whose value equals the hand card's value; temporary stacks are never kept
("Temporary stacks cannot be captured directly"). -/
def getCapturableCards (tableCards : List TableItem) (handCard : Card) : List TableItem :=
  tableCards.filter (fun tc =>
    match tc with
    | .loose c => c.rank == handCard.rank
    | .build b => b.value == handCard.value
    | .tstack _ => false)

/-- `canFinalizeStagingStack(stack)` from shared-game-logic.js:
at least one hand-sourced and at least one table-sourced card. -/
def canFinalizeStagingStack (stack : TempStack) : Bool :=
  decide (1 ≤ (stack.cards.filter (fun c => c.source == "hand")).length) &&
  decide (1 ≤ (stack.cards.filter (fun c => c.source == "table")).length)

/-- A dragged item `{ card, source, player, stackId? }`. -/
structure DraggedItem where
  card : Card
  source : String
  player : Nat
  stackId : Option String
deriving DecidableEq, Repr

/- ---------------------------------------------------------------------
The exported action handlers of shared-game-logic.js.  Every one of them
is, in the source, a stub that returns `gameState` unchanged (the file
says "Stub implementations for game actions. These will be replaced with
actual implementations").  The embedding reproduces exactly that.
--------------------------------------------------------------------- -/

/-- Source stub: returns the game state unchanged. -/
def handleCreateStagingStack (gameState : GameState) (_handCard : Card) (_tableCard : Card) :
    GameState :=
  gameState

/-- Source stub: returns the game state unchanged. -/
def handleAddToStagingStack (gameState : GameState) (_handCard : Card) (targetStack : TempStack) :
    GameState :=
  gameState

/-- Source stub: returns the game state unchanged. -/
def handleFinalizeStagingStack (gameState : GameState) (stack : TempStack) : GameState :=
  gameState

/-- Source stub: returns the game state unchanged. -/
def handleCreateBuildWithValue (gameState : GameState) (stack : TempStack) (buildValue : Nat) :
    GameState :=
  gameState

/-- Source stub: returns the game state unchanged. -/
def handleCancelStagingStack (gameState : GameState) (stackToCancel : TempStack) : GameState :=
  gameState

/-- Source stub: returns the game state unchanged. -/
def handleAddToOpponentBuild (gameState : GameState) (draggedItem : DraggedItem)
    (buildToAddTo : Build) : GameState :=
  gameState

/-- Source stub: returns the game state unchanged. -/
def handleAddToOwnBuild (gameState : GameState) (draggedItem : DraggedItem)
    (buildToAddTo : Build) : GameState :=
  gameState

/-- Source stub: returns the game state unchanged. -/
def handleCapture (gameState : GameState) (draggedItem : DraggedItem)
    (selectedTableCards : List TableItem) (opponentCard : Option Card) : GameState :=
  gameState

/-- Source stub: returns the game state unchanged. -/
def handleTrail (gameState : GameState) (card : Card) : GameState :=
  gameState

/-- Source stub: returns the game state unchanged. -/
def handleBuild (gameState : GameState) (payload : List Card) : GameState :=
  gameState

/-- Source stub: returns the game state unchanged. -/
def handleTableCardDrop (gameState : GameState) (draggedCard : Card) (targetCard : Card) :
    GameState :=
  gameState

/-- Source stub: returns the game state unchanged. -/
def handleAddToTemporaryCaptureStack (gameState : GameState) (card : Card) (stack : TempStack) :
    GameState :=
  gameState

/-- The states reachable from `initializeGame` by the exported action
handlers of shared-game-logic.js. -/
inductive Reachable : GameState → Prop where
  | init (r : Nat → Nat) : Reachable (initializeGame r)
  | createStagingStack (s : GameState) (hc tc : Card) :
      Reachable s → Reachable (handleCreateStagingStack s hc tc)
  | addToStagingStack (s : GameState) (hc : Card) (st : TempStack) :
      Reachable s → Reachable (handleAddToStagingStack s hc st)
  | finalizeStagingStack (s : GameState) (st : TempStack) :
      Reachable s → Reachable (handleFinalizeStagingStack s st)
  | createBuildWithValue (s : GameState) (st : TempStack) (v : Nat) :
      Reachable s → Reachable (handleCreateBuildWithValue s st v)
  | cancelStagingStack (s : GameState) (st : TempStack) :
      Reachable s → Reachable (handleCancelStagingStack s st)
  | addToOpponentBuild (s : GameState) (d : DraggedItem) (b : Build) :
      Reachable s → Reachable (handleAddToOpponentBuild s d b)
  | addToOwnBuild (s : GameState) (d : DraggedItem) (b : Build) :
      Reachable s → Reachable (handleAddToOwnBuild s d b)
  | capture (s : GameState) (d : DraggedItem) (sel : List TableItem) (oc : Option Card) :
      Reachable s → Reachable (handleCapture s d sel oc)
  | trail (s : GameState) (c : Card) :
      Reachable s → Reachable (handleTrail s c)
  | buildAction (s : GameState) (p : List Card) :
      Reachable s → Reachable (handleBuild s p)
  | tableCardDrop (s : GameState) (dc tc : Card) :
      Reachable s → Reachable (handleTableCardDrop s dc tc)
  | addToTempCaptureStack (s : GameState) (c : Card) (st : TempStack) :
      Reachable s → Reachable (handleAddToTemporaryCaptureStack s c st)

/-- Every card of a state, across deck, both hands, the cards embedded in
table items, and the cards of all capture groups. -/
def allCards (g : GameState) : List Card :=
  g.deck ++ g.playerHands.flatten ++ (g.tableCards.flatMap TableItem.embeddedCards) ++
    g.playerCaptures.flatten.flatten

/- ---------------------------------------------------------------------
The exact shape of the deal (claim C2).
--------------------------------------------------------------------- -/

/-- The elements at even positions (0, 2, 4, ...) of a list. -/
def evens {α : Type _} : List α → List α
  | [] => []
  | [a] => [a]
  | a :: _ :: t => a :: evens t

/-- The elements at odd positions (1, 3, 5, ...) of a list. -/
def odds {α : Type _} (l : List α) : List α := evens l.tail

/-- The cards popped by the dealing loop, in deal order: the last 20 cards
of the shuffled deck, last card first. -/
def dealtSequence (r : Nat → Nat) : List Card := (shuffledDeck r).reverse.take 20

/- ---------------------------------------------------------------------
Embedding of `determineActions` from src/utils/actionDeterminer.ts
(lines 115-312, the exported entry point of the module).
--------------------------------------------------------------------- -/

/-- The `targetInfo` argument of `determineActions`: the drop target
description, with absent JavaScript fields embedded as `none`. -/
structure TargetInfo where
  type : Option String := none
  card : Option Card := none
  stackId : Option String := none
  buildId : Option String := none
deriving DecidableEq, Repr

/-- The `GameState` interface of actionDeterminer.ts (only the four fields
the module reads). -/
structure DetGameState where
  tableCards : List TableItem
  playerHands : List (List Card)
  currentPlayer : Nat
  round : Nat
deriving DecidableEq, Repr

/-- The union of the payload fields produced by `determineActions`; a JS
payload object carries a subset of them, the rest are embedded as `none`.
`biggerCard`/`smallerCard` hold either the dragged hand card or the target
table card, exactly as the ternaries in the source mix the two. -/
structure Payload where
  draggedItem : Option DraggedItem := none
  selectedTableCards : Option (List TableItem) := none
  targetCard : Option TableItem := none
  tableIndex : Option Nat := none
  tableCardsInBuild : Option (List TableItem) := none
  buildValue : Option Nat := none
  biggerCard : Option (Card ⊕ TableItem) := none
  smallerCard : Option (Card ⊕ TableItem) := none
  handCard : Option Card := none
  targetStack : Option TableItem := none
  buildToAddTo : Option TableItem := none
  card : Option Card := none
deriving DecidableEq, Repr

/-- The `Action` interface of actionDeterminer.ts (named `GameAction` here
because the library already has an `Action`): `{ type, label, payload, priority? }`. -/
structure GameAction where
  type : String
  label : String
  payload : Payload
  priority : Option Nat := none
deriving DecidableEq, Repr

/-- The result record of `determineActions`. -/
structure ActionResult where
  actions : List GameAction
  requiresModal : Bool
  errorMessage : Option String
deriving DecidableEq, Repr

/-- JavaScript truthiness of an optional string (absent and `""` are
falsy). -/
def strTruthy : Option String → Bool
  | none => false
  | some s => !(s == "")

/-- Step 1 of `determineActions`: one capture action per table loose card
whose rank value equals the dragged card's value and per build whose value
equals it; temporary stacks yield nothing. -/
def captureOptions (draggedItem : DraggedItem) (tableCards : List TableItem) : List GameAction :=
  let draggedValue := rankValue draggedItem.card.rank
  tableCards.filterMap (fun tableCard =>
    match tableCard with
    | .loose c =>
        if rankValue c.rank == draggedValue then
          some { type := "capture", label := "Capture " ++ rankStr c.rank,
                 payload := { draggedItem := some draggedItem,
                              selectedTableCards := some [TableItem.loose c],
                              targetCard := some (TableItem.loose c) } }
        else none
    | .build b =>
        if b.value == draggedValue then
          some { type := "capture", label := "Capture Build (" ++ toString b.value ++ ")",
                 payload := { draggedItem := some draggedItem,
                              targetCard := some (TableItem.build b) } }
        else none
    | .tstack _ => none)

/-- Step 2 of `determineActions`: when dropping on a loose card, offer a
build for each candidate value (the dragged value alone, or dragged plus
target) for which the hand holds a distinct capturing card, the player owns
no build, and the value is at most 10. -/
def buildOptions (draggedItem : DraggedItem) (targetInfo : TargetInfo)
    (gameState : DetGameState) : List GameAction :=
  let draggedCard := draggedItem.card
  let draggedValue := rankValue draggedCard.rank
  let playerHand := gameState.playerHands.getD gameState.currentPlayer []
  if targetInfo.type == some "loose" then
    match gameState.tableCards.find? (fun c =>
      match c, targetInfo.card with
      | .loose lc, some t => lc.rank == t.rank && lc.suit == t.suit
      | _, _ => false) with
    | some (.loose targetCard) =>
        let targetValue := rankValue targetCard.rank
        [draggedValue, draggedValue + targetValue].filterMap (fun buildValue =>
          let hasCaptureCard := playerHand.any (fun c =>
            rankValue c.rank == buildValue &&
              !(c.rank == draggedCard.rank && c.suit == draggedCard.suit))
          let hasExistingBuild := gameState.tableCards.any (fun c =>
            match c with
            | .build b => b.owner == gameState.currentPlayer
            | _ => false)
          if hasCaptureCard && !hasExistingBuild && decide (buildValue ≤ 10) then
            some { type := "build",
                   label := if buildValue == draggedValue then
                       "Build " ++ toString buildValue
                     else
                       "Build " ++ toString buildValue ++ " (" ++ toString draggedValue ++
                         "+" ++ toString targetValue ++ ")",
                   payload := { draggedItem := some draggedItem,
                                tableCardsInBuild := some [TableItem.loose targetCard],
                                buildValue := some buildValue,
                                biggerCard := some (if draggedValue > targetValue then
                                    Sum.inl draggedCard
                                  else Sum.inr (TableItem.loose targetCard)),
                                smallerCard := some (if draggedValue < targetValue then
                                    Sum.inl draggedCard
                                  else Sum.inr (TableItem.loose targetCard)) } }
          else none)
    | _ => []
  else []

/-- Step 3 of `determineActions`: when dropping on a temporary stack the
current player owns, offer to add to it. -/
def stackAddOptions (draggedItem : DraggedItem) (targetInfo : TargetInfo)
    (gameState : DetGameState) : List GameAction :=
  if targetInfo.type == some "temporary_stack" then
    match gameState.tableCards.find? (fun c =>
      match c, targetInfo.stackId with
      | .tstack s, some sid => s.stackId == sid
      | _, _ => false) with
    | some (.tstack s) =>
        if s.owner == gameState.currentPlayer then
          [{ type := "addToStagingStack", label := "Add to Temp Stack",
             payload := { handCard := some draggedItem.card,
                          targetStack := some (TableItem.tstack s) } }]
        else []
    | _ => []
  else []

/-- Step 4 of `determineActions`: when dropping on a build, offer to add to
an own build, or to extend an opponent's build marked extendable when the
new value stays at most 10. -/
def buildAddOptions (draggedItem : DraggedItem) (targetInfo : TargetInfo)
    (gameState : DetGameState) : List GameAction :=
  let draggedValue := rankValue draggedItem.card.rank
  if targetInfo.type == some "build" then
    match gameState.tableCards.find? (fun c =>
      match c, targetInfo.buildId with
      | .build b, some bid => b.buildId == bid
      | _, _ => false) with
    | some (.build b) =>
        if b.owner == gameState.currentPlayer then
          [{ type := "addToOwnBuild", label := "Add to Build (" ++ toString b.value ++ ")",
             payload := { draggedItem := some draggedItem,
                          buildToAddTo := some (TableItem.build b) } }]
        else if b.isExtendable then
          if b.value + draggedValue ≤ 10 then
            [{ type := "addToOpponentBuild",
               label := "Extend to " ++ toString (b.value + draggedValue),
               payload := { draggedItem := some draggedItem,
                            buildToAddTo := some (TableItem.build b) } }]
          else []
        else []
    | _ => []
  else []

/-- `hasActiveBuild` as computed inline in step 5 of `determineActions`:
does a build owned by the given player sit on the table? -/
def hasActiveBuild (tableCards : List TableItem) (playerIndex : Nat) : Bool :=
  tableCards.any (fun c =>
    match c with
    | .build b => b.owner == playerIndex
    | _ => false)

/-- The drop-target condition of step 5:
`!targetInfo.type || targetInfo.type === 'table'`. -/
def trailTargetOk (targetInfo : TargetInfo) : Bool :=
  !strTruthy targetInfo.type || targetInfo.type == some "table"

/-- The trail action pushed by step 5. -/
def trailAction (draggedItem : DraggedItem) : GameAction :=
  { type := "trail", label := "Trail Card",
    payload := { draggedItem := some draggedItem, card := some draggedItem.card } }

/-- The three return sites at the end of `determineActions`: an error
record when no action was found, an auto-executing result for a single
trail or capture, a modal result otherwise. -/
def packageResult (acts : List GameAction) : ActionResult :=
  if acts.isEmpty then
    { actions := [], requiresModal := false, errorMessage := some "No valid actions available" }
  else if acts.length == 1 &&
      (match acts.head? with
       | some a => a.type == "trail" || a.type == "capture"
       | none => false) then
    { actions := acts, requiresModal := false, errorMessage := none }
  else
    { actions := acts, requiresModal := true, errorMessage := none }

/-- `determineActions(draggedItem, targetInfo, gameState)` from
actionDeterminer.ts: reject non-hand sources; collect capture, build,
stack-add and build-add options; when nothing was found and the drop is on
the empty table area, offer a trail unless it is round 1 and the player
owns an active build; package the result with the modal flag and error
message exactly as the source's three return sites do. -/
def determineActions (draggedItem : DraggedItem) (targetInfo : TargetInfo)
    (gameState : DetGameState) : ActionResult :=
  if draggedItem.source != "hand" then
    { actions := [], requiresModal := false, errorMessage := some "Only hand cards supported" }
  else
    let acc := captureOptions draggedItem gameState.tableCards ++
      buildOptions draggedItem targetInfo gameState ++
      stackAddOptions draggedItem targetInfo gameState ++
      buildAddOptions draggedItem targetInfo gameState
    let acts :=
      if acc.isEmpty && trailTargetOk targetInfo then
        if !(gameState.round == 1 &&
            hasActiveBuild gameState.tableCards gameState.currentPlayer) then
          acc ++ [trailAction draggedItem]
        else acc
      else acc
    packageResult acts

/- ---------------------------------------------------------------------
Structural lemmas about the option lists of `determineActions`.
--------------------------------------------------------------------- -/

/-- A table item shares the played card's capture value when it is a loose
card of that rank value or a build of that value; a temporary stack never
does. -/
def sharesCaptureValue (v : Nat) : TableItem → Prop
  | .loose c => rankValue c.rank = v
  | .build b => b.value = v
  | .tstack _ => False

/- ---------------------------------------------------------------------
Concrete sample inputs used by witnesses and counterexamples.
--------------------------------------------------------------------- -/

/-- The 4 of spades. -/
def c4S : Card := { suit := .spades, rank := .r4, value := 4 }

/-- The 4 of hearts. -/
def c4H : Card := { suit := .hearts, rank := .r4, value := 4 }

/-- The 8 of diamonds. -/
def c8D : Card := { suit := .diamonds, rank := .r8, value := 8 }

/-- The ace of spades. -/
def cAS : Card := { suit := .spades, rank := .A, value := 1 }

/-- The ace of hearts. -/
def cAH : Card := { suit := .hearts, rank := .A, value := 1 }

/-- The ace of diamonds. -/
def cAD : Card := { suit := .diamonds, rank := .A, value := 1 }

/-- The ace of clubs. -/
def cAC : Card := { suit := .clubs, rank := .A, value := 1 }

/-- The 3 of spades. -/
def c3S : Card := { suit := .spades, rank := .r3, value := 3 }

/-- The 2 of hearts. -/
def c2H : Card := { suit := .hearts, rank := .r2, value := 2 }

/-- The 2 of diamonds. -/
def c2D : Card := { suit := .diamonds, rank := .r2, value := 2 }

/-- The 5 of spades. -/
def c5S : Card := { suit := .spades, rank := .r5, value := 5 }

/-- The 5 of diamonds. -/
def c5D : Card := { suit := .diamonds, rank := .r5, value := 5 }

/-- Dragging the 4 of spades from the hand. -/
def dragItem4S : DraggedItem := { card := c4S, source := "hand", player := 0, stackId := none }

/-- A drop on the empty table area (no target fields set). -/
def emptyTarget : TargetInfo := {}

/-- The forced-capture scenario of the spec: table holds the loose 4 of
hearts, the current player holds the 4 of spades and the 8 of diamonds. -/
def forcedCaptureState : DetGameState :=
  { tableCards := [TableItem.loose c4H], playerHands := [[c4S, c8D], []],
    currentPlayer := 0, round := 1 }

/-- The opposing build of value 1 used by the C5 counterexample. -/
def buildAce : Build :=
  { buildId := "b1", cards := [cAC], value := 1, owner := 1, isExtendable := false }

/-- Dragging the ace of spades from the hand. -/
def dragItemAS : DraggedItem := { card := cAS, source := "hand", player := 0, stackId := none }

/-- Dropping on the loose ace of hearts. -/
def targetLooseAH : TargetInfo := { type := some "loose", card := some cAH }

/-- Table with the loose ace of hearts and the opponent's build of value 1;
the current player holds two aces. -/
def aceState : DetGameState :=
  { tableCards := [TableItem.loose cAH, TableItem.build buildAce],
    playerHands := [[cAS, cAD], []], currentPlayer := 0, round := 2 }

/-- A five-card extendable build of value 2 owned by player 1, used by the
C8 counterexample. -/
def buildFive : Build :=
  { buildId := "b8", cards := [cAC, cAH, c2H, c2D, c5D], value := 2, owner := 1,
    isExtendable := true }

/-- Dragging the 3 of spades from the hand. -/
def dragItem3S : DraggedItem := { card := c3S, source := "hand", player := 0, stackId := none }

/-- Dropping on the five-card build. -/
def targetBuildFive : TargetInfo := { type := some "build", buildId := some "b8" }

/-- Table with only the five-card build; the current player holds the 3 of
spades. -/
def fiveCardBuildState : DetGameState :=
  { tableCards := [TableItem.build buildFive], playerHands := [[c3S], []],
    currentPlayer := 0, round := 2 }

/-- The concrete extension action offered in `fiveCardBuildState`. -/
def extendAction : GameAction :=
  { type := "addToOpponentBuild", label := "Extend to 5",
    payload := { draggedItem := some dragItem3S,
                 buildToAddTo := some (TableItem.build buildFive) } }

/-- The capture relation applied by `getCapturableCards`: rank equality for
a loose card, value equality for a build, never for a temporary stack. -/
def capturableBy (tc : TableItem) (handCard : Card) : Prop :=
  match tc with
  | .loose c => c.rank = handCard.rank
  | .build b => b.value = handCard.value
  | .tstack _ => False

/-- A two-card staged stack (2♥ from hand, 3♠ from table) whose declared
total is 5. -/
def stackFive : TempStack :=
  { stackId := "t1",
    cards := [{ card := c2H, source := "hand" }, { card := c3S, source := "table" }],
    owner := 0, totalValue := 5 }

/-- A state whose current player (player 0) holds the 4 of spades and the
table is empty: the input at which the claim about `handleTrail` fails. -/
def trailState : GameState :=
  { deck := [], playerHands := [[c4S], []], tableCards := [], playerCaptures := [[], []],
    currentPlayer := 0, round := 1, scores := [0, 0], gameOver := false,
    winner := none, lastCapturer := none, scoreDetails := none }

/-- The freshly built deck has exactly 40 cards. -/
theorem freshDeck_length : freshDeck.length = 40 := by decide

/-- No (rank, suit) pair occurs twice in the freshly built deck. -/
theorem freshDeck_pairs_nodup : (freshDeck.map (fun c => (c.rank, c.suit))).Nodup := by decide

/-- Every card of the freshly built deck carries the value computed by
`rankValue` (1 for an ace, the numeric rank otherwise). -/
theorem freshDeck_values : ∀ c ∈ freshDeck, c.value = rankValue c.rank := by decide

/- ---------------------------------------------------------------------
Permutation facts about the shuffle and the deal.
--------------------------------------------------------------------- -/

/-- Moving the element at position `k` of `t` to the front and putting `x`
in its place is a permutation of `x :: t`. -/
theorem cons_set_perm {α : Type _} (x : α) :
    ∀ (t : List α) (k : Nat) (a : α), t[k]? = some a → (x :: t).Perm (a :: t.set k x)
  | [], k, a, h => by simp at h
  | b :: t, 0, a, h => by
      simp only [List.getElem?_cons_zero, Option.some.injEq] at h
      subst h
      simpa using List.Perm.swap b x t
  | b :: t, k + 1, a, h => by
      simp only [List.getElem?_cons_succ] at h
      simp only [List.set_cons_succ]
      exact (List.Perm.swap b x t).trans
        (((cons_set_perm x t k a h).cons b).trans (List.Perm.swap a b (t.set k x)))

/-- A Fisher-Yates swap is a permutation. -/
theorem swapIdx_perm : ∀ (l : List Card) (i j : Nat), (swapIdx l i j).Perm l
  | [], i, j => by simp [swapIdx]
  | x :: t, 0, 0 => by simp [swapIdx]
  | x :: t, 0, j + 1 => by
      cases hj : t[j]? with
      | none => simp [swapIdx, hj]
      | some b =>
          simp only [swapIdx, List.getElem?_cons_zero, List.getElem?_cons_succ, hj,
            List.set_cons_zero, List.set_cons_succ]
          exact (cons_set_perm x t j b hj).symm
  | x :: t, i + 1, 0 => by
      cases hi : t[i]? with
      | none => simp [swapIdx, hi]
      | some a =>
          simp only [swapIdx, List.getElem?_cons_zero, List.getElem?_cons_succ, hi,
            List.set_cons_zero, List.set_cons_succ]
          exact (cons_set_perm x t i a hi).symm
  | x :: t, i + 1, j + 1 => by
      cases hi : t[i]? with
      | none => simp [swapIdx, hi]
      | some a =>
        cases hj : t[j]? with
        | none => simp [swapIdx, hi, hj]
        | some b =>
            have ih := swapIdx_perm t i j
            simp only [swapIdx, List.getElem?_cons_succ, hi, hj, List.set_cons_succ] at ih ⊢
            exact ih.cons x

/-- The whole shuffle loop is a permutation. -/
theorem fyLoop_perm (r : Nat → Nat) : ∀ (n : Nat) (d : List Card), (fyLoop r d n).Perm d
  | 0, d => List.Perm.refl d
  | n + 1, d => (fyLoop_perm r n (swapIdx d (n + 1) (r (n + 1)))).trans
      (swapIdx_perm d (n + 1) (r (n + 1)))

/-- The shuffled deck is a permutation of the freshly built deck. -/
theorem shuffledDeck_perm (r : Nat → Nat) : (shuffledDeck r).Perm freshDeck :=
  fyLoop_perm r (freshDeck.length - 1) freshDeck

/-- Removing the last element and re-appending it is the identity. -/
theorem dropLast_append_getLastToList {α : Type _} :
    ∀ (l : List α), l.dropLast ++ l.getLast?.toList = l
  | [] => rfl
  | [_] => rfl
  | x :: y :: t => by
      have ih := dropLast_append_getLastToList (y :: t)
      simpa [List.dropLast] using congrArg (fun z => x :: z) ih

/-- The dealing loop only moves cards between the deck and the hands. -/
theorem dealLoop_perm :
    ∀ (n : Nat) (d h0 h1 : List Card),
      ((dealLoop n (d, h0, h1)).1 ++ (dealLoop n (d, h0, h1)).2.1 ++
        (dealLoop n (d, h0, h1)).2.2).Perm (d ++ h0 ++ h1)
  | 0, d, h0, h1 => List.Perm.refl _
  | n + 1, d, h0, h1 => by
      have ih := dealLoop_perm n d.dropLast.dropLast (h0 ++ d.getLast?.toList)
        (h1 ++ d.dropLast.getLast?.toList)
      refine (ih.trans ?_)
      rw [List.perm_iff_count]
      intro a
      have e1 := congrArg (List.count a) (dropLast_append_getLastToList d)
      have e2 := congrArg (List.count a) (dropLast_append_getLastToList d.dropLast)
      simp only [List.count_append] at e1 e2 ⊢
      omega

/-- Each card of the initial state, taken together, is a permutation of the
freshly built 40-card deck. -/
theorem allCards_initializeGame_perm (r : Nat → Nat) :
    (allCards (initializeGame r)).Perm freshDeck := by
  have hd := dealLoop_perm 10 (shuffledDeck r) [] []
  have hf := shuffledDeck_perm r
  rw [List.perm_iff_count]
  intro a
  have h1 := hd.count_eq a
  have h2 := hf.count_eq a
  simp only [allCards, initializeGame, List.flatten, List.flatMap, List.count_append,
    List.map_nil, List.append_nil, List.count_nil] at h1 h2 ⊢
  omega

set_option maxHeartbeats 2000000 in
/-- C1. Card conservation: in the state produced by `initializeGame` and in
every state reachable from it through the exported action handlers, the
deck, the two hands, the cards embedded in table items and the cards of
all capture groups together hold exactly 40 cards, and no (rank, suit)
pair occurs twice across all locations. -/
theorem card_conservation (s : GameState) (h : Reachable s) :
    (allCards s).length = 40 ∧
      ((allCards s).map (fun c => (c.rank, c.suit))).Nodup := by
  induction h with
  | init r =>
      have hperm := allCards_initializeGame_perm r
      refine ⟨hperm.length_eq.trans freshDeck_length, ?_⟩
      have hm := hperm.map (fun c => (c.rank, c.suit))
      exact (List.Perm.nodup_iff hm).mpr freshDeck_pairs_nodup
  | createStagingStack s hc tc hs ih => exact ih
  | addToStagingStack s hc st hs ih => exact ih
  | finalizeStagingStack s st hs ih => exact ih
  | createBuildWithValue s st v hs ih => exact ih
  | cancelStagingStack s st hs ih => exact ih
  | addToOpponentBuild s d b hs ih => exact ih
  | addToOwnBuild s d b hs ih => exact ih
  | capture s d sel oc hs ih => exact ih
  | trail s c hs ih => exact ih
  | buildAction s p hs ih => exact ih
  | tableCardDrop s dc tc hs ih => exact ih
  | addToTempCaptureStack s c st hs ih => exact ih

/-- Witness for `card_conservation` at the concrete initial state drawn
with the constant random source. -/
theorem card_conservation_witness :
    (allCards (initializeGame (fun _ => 0))).length = 40 ∧
      ((allCards (initializeGame (fun _ => 0))).map (fun c => (c.rank, c.suit))).Nodup :=
  card_conservation (initializeGame (fun _ => 0)) (Reachable.init (fun _ => 0))

theorem odds_cons {α : Type _} (a : α) (l : List α) : odds (a :: l) = evens l := rfl

theorem evens_cons {α : Type _} (a : α) (l : List α) : evens (a :: l) = a :: odds l := by
  cases l <;> rfl

theorem evens_length {α : Type _} : ∀ l : List α, (evens l).length = (l.length + 1) / 2
  | [] => by simp [evens]
  | [_] => by simp [evens]
  | a :: b :: t => by
      have ih := evens_length t
      simp only [evens, List.length_cons, ih]
      omega

theorem odds_length {α : Type _} (l : List α) : (odds l).length = l.length / 2 := by
  cases l with
  | nil => simp [odds, evens]
  | cons a t => simp [odds_cons, evens_length]

/-- `take` commutes with `dropLast` when it stays inside the shorter list. -/
theorem take_dropLast {α : Type _} (l : List α) (n : Nat) (h : n ≤ l.length - 1) :
    l.dropLast.take n = l.take n := by
  rw [List.dropLast_eq_take, List.take_take, Nat.min_eq_left h]

/-- Closed form of the dealing loop: after `n` rounds of popping one card
for player 0 and one for player 1, the deck is the prefix that was never
popped, and the hands hold the even- and odd-position cards of the popped
sequence (the reversed suffix). -/
theorem dealLoop_spec :
    ∀ (n : Nat) (d h0 h1 : List Card), 2 * n ≤ d.length →
      dealLoop n (d, h0, h1) =
        (d.take (d.length - 2 * n),
         h0 ++ evens (d.reverse.take (2 * n)),
         h1 ++ odds (d.reverse.take (2 * n)))
  | 0, d, h0, h1, _ => by
      simp [dealLoop, evens, odds, List.take_length]
  | n + 1, d, h0, h1, h => by
      have hlen : 2 ≤ d.length := by omega
      have hne : d ≠ [] := by
        intro e
        rw [e] at hlen
        simp at hlen
      have hlen1 : d.dropLast.length = d.length - 1 := List.length_dropLast d
      have hne2 : d.dropLast ≠ [] := by
        intro e
        rw [e] at hlen1
        simp at hlen1
        omega
      have e1 : d.getLast? = some (d.getLast hne) :=
        List.getLast?_eq_getLast_of_ne_nil hne
      have e2 : d.dropLast.getLast? = some (d.dropLast.getLast hne2) :=
        List.getLast?_eq_getLast_of_ne_nil hne2
      have r1 : d.reverse = d.getLast hne :: d.dropLast.reverse := by
        conv_lhs => rw [← dropLast_append_getLastToList d]
        rw [e1]
        simp
      have r2 : d.dropLast.reverse = d.dropLast.getLast hne2 :: d.dropLast.dropLast.reverse := by
        conv_lhs => rw [← dropLast_append_getLastToList d.dropLast]
        rw [e2]
        simp
      have hlen2 : d.dropLast.dropLast.length = d.length - 2 := by
        rw [List.length_dropLast, hlen1]
        omega
      have hlen' : 2 * n ≤ d.dropLast.dropLast.length := by omega
      have ih := dealLoop_spec n d.dropLast.dropLast (h0 ++ d.getLast?.toList)
        (h1 ++ d.dropLast.getLast?.toList) hlen'
      show dealLoop n (d.dropLast.dropLast, h0 ++ d.getLast?.toList,
        h1 ++ d.dropLast.getLast?.toList) = _
      rw [ih, e1, e2]
      have htake : d.reverse.take (2 * (n + 1)) =
          d.getLast hne :: d.dropLast.getLast hne2 ::
            d.dropLast.dropLast.reverse.take (2 * n) := by
        have h21 : 2 * (n + 1) = (2 * n + 1) + 1 := by omega
        rw [r1, h21, List.take_succ_cons, r2, List.take_succ_cons]
      simp only [Prod.mk.injEq]
      refine ⟨?_, ?_, ?_⟩
      · rw [hlen2]
        have hk1 : d.length - 2 - 2 * n ≤ d.dropLast.length - 1 := by omega
        have hk2 : d.length - 2 - 2 * n ≤ d.length - 1 := by omega
        rw [take_dropLast _ _ hk1, take_dropLast _ _ hk2]
        have : d.length - 2 - 2 * n = d.length - 2 * (n + 1) := by omega
        rw [this]
      · rw [htake, evens_cons, odds_cons]
        simp
      · rw [htake, odds_cons, evens_cons]
        simp

/-- The whole fresh deck is duplicate-free. -/
theorem freshDeck_nodup : freshDeck.Nodup := by decide

/-- The shuffled deck still has 40 cards. -/
theorem shuffledDeck_length (r : Nat → Nat) : (shuffledDeck r).length = 40 :=
  (shuffledDeck_perm r).length_eq.trans freshDeck_length

/-- Closed form of `initializeGame`: the never-popped prefix of the
shuffled deck stays as the deck and the popped cards alternate between the
two hands, player 0 first. -/
theorem initializeGame_eq (r : Nat → Nat) : initializeGame r =
    { deck := (shuffledDeck r).take 20,
      playerHands := [evens (dealtSequence r), odds (dealtSequence r)],
      tableCards := [], playerCaptures := [[], []], currentPlayer := 0, round := 1,
      scores := [0, 0], gameOver := false, winner := none, lastCapturer := none,
      scoreDetails := none } := by
  have hsl := shuffledDeck_length r
  have hds := dealLoop_spec 10 (shuffledDeck r) [] [] (by rw [hsl]; norm_num)
  rw [hsl] at hds
  norm_num at hds
  simp only [initializeGame, hds, dealtSequence]

/-- C2. `initializeGame` deals the ten even-position cards of the popped
sequence to player 0 and the ten odd-position cards to player 1 (so player
0 receives the first dealt card and the deal alternates), leaves the 20
never-popped cards as the deck, and the 40 cards across deck and hands are
a permutation of the duplicate-free 4-suit-by-10-rank deck whose values are
1 for an ace and the numeric rank otherwise; the table and both capture
piles start empty, `currentPlayer` is 0, `round` is 1 and `gameOver` is
false. -/
theorem initializeGame_spec (r : Nat → Nat) :
    (initializeGame r).playerHands = [evens (dealtSequence r), odds (dealtSequence r)] ∧
    (evens (dealtSequence r)).length = 10 ∧
    (odds (dealtSequence r)).length = 10 ∧
    (initializeGame r).deck = (shuffledDeck r).take 20 ∧
    (initializeGame r).deck.length = 20 ∧
    ((initializeGame r).deck ++ evens (dealtSequence r) ++ odds (dealtSequence r)).Perm
      freshDeck ∧
    freshDeck.Nodup ∧
    (∀ c ∈ freshDeck, c.value = rankValue c.rank) ∧
    freshDeck.length = 40 ∧
    (initializeGame r).tableCards = [] ∧
    (initializeGame r).playerCaptures = [[], []] ∧
    (initializeGame r).currentPlayer = 0 ∧
    (initializeGame r).round = 1 ∧
    (initializeGame r).gameOver = false := by
  have hsl := shuffledDeck_length r
  have hlen0 : (dealtSequence r).length = 20 := by
    simp [dealtSequence, List.length_take, List.length_reverse, hsl]
  have hev : (evens (dealtSequence r)).length = 10 := by
    rw [evens_length, hlen0]
  have hod : (odds (dealtSequence r)).length = 10 := by
    rw [odds_length, hlen0]
  have hperm : ((shuffledDeck r).take 20 ++ evens (dealtSequence r) ++
      odds (dealtSequence r)).Perm freshDeck := by
    have hds := dealLoop_spec 10 (shuffledDeck r) [] [] (by rw [hsl]; norm_num)
    rw [hsl] at hds
    norm_num at hds
    have h1 : (dealLoop 10 (shuffledDeck r, [], [])).1 = (shuffledDeck r).take 20 := by
      rw [hds]
    have h2 : (dealLoop 10 (shuffledDeck r, [], [])).2.1 =
        evens ((shuffledDeck r).reverse.take 20) := by
      rw [hds]
    have h3 : (dealLoop 10 (shuffledDeck r, [], [])).2.2 =
        odds ((shuffledDeck r).reverse.take 20) := by
      rw [hds]
    have hp := dealLoop_perm 10 (shuffledDeck r) [] []
    rw [h1, h2, h3, List.append_nil, List.append_nil] at hp
    simp only [dealtSequence]
    exact hp.trans (shuffledDeck_perm r)
  have hd : (initializeGame r).deck = (shuffledDeck r).take 20 := by
    rw [initializeGame_eq r]
  have hph : (initializeGame r).playerHands =
      [evens (dealtSequence r), odds (dealtSequence r)] := by
    rw [initializeGame_eq r]
  refine ⟨hph, hev, hod, hd, ?_, ?_, freshDeck_nodup, freshDeck_values, freshDeck_length,
    by rw [initializeGame_eq r], by rw [initializeGame_eq r], by rw [initializeGame_eq r],
    by rw [initializeGame_eq r], by rw [initializeGame_eq r]⟩
  · rw [hd, List.length_take, hsl]
    norm_num
  · rw [hd]
    exact hperm

/-- `packageResult` keeps the action list whenever it is non-empty, and
reports an error exactly on the empty list. -/
theorem packageResult_spec (acts : List GameAction) :
    (acts = [] ∧ packageResult acts =
      { actions := [], requiresModal := false,
        errorMessage := some "No valid actions available" }) ∨
    (acts ≠ [] ∧ (packageResult acts).actions = acts ∧
      (packageResult acts).errorMessage = none) := by
  cases acts with
  | nil => exact Or.inl ⟨rfl, rfl⟩
  | cons a l =>
      refine Or.inr ⟨by simp, ?_, ?_⟩ <;>
        · simp only [packageResult, List.isEmpty_cons, Bool.false_eq_true, if_false]
          split <;> rfl

/-- `packageResult` carries an error message exactly when it carries no
action. -/
theorem packageResult_error_iff (acts : List GameAction) :
    (packageResult acts).errorMessage ≠ none ↔ (packageResult acts).actions = [] := by
  rcases packageResult_spec acts with ⟨h1, h2⟩ | ⟨h1, h2, h3⟩
  · rw [h2]
    simp [h1]
  · rw [h2, h3]
    simp [h1]

theorem captureOptions_types (d : DraggedItem) (tcs : List TableItem) :
    ∀ a ∈ captureOptions d tcs, a.type = "capture" := by
  intro a ha
  simp only [captureOptions, List.mem_filterMap] at ha
  obtain ⟨tc, _, hf⟩ := ha
  cases tc with
  | loose c =>
      by_cases h : (rankValue c.rank == rankValue d.card.rank) = true
      · simp only [h, if_pos] at hf
        cases hf
        rfl
      · simp only [h] at hf
        simp at hf
  | build b =>
      by_cases h : (b.value == rankValue d.card.rank) = true
      · simp only [h, if_pos] at hf
        cases hf
        rfl
      · simp only [h] at hf
        simp at hf
  | tstack s => simp at hf

theorem captureOptions_eq_nil_iff (d : DraggedItem) (tcs : List TableItem) :
    captureOptions d tcs = [] ↔
      ∀ tc ∈ tcs, ¬ sharesCaptureValue (rankValue d.card.rank) tc := by
  simp only [captureOptions, List.filterMap_eq_nil_iff]
  refine forall₂_congr ?_
  intro tc _
  cases tc with
  | loose c => simp [sharesCaptureValue, beq_iff_eq]
  | build b => simp [sharesCaptureValue, beq_iff_eq]
  | tstack s => simp [sharesCaptureValue]

theorem stackAddOptions_types (d : DraggedItem) (t : TargetInfo) (g : DetGameState) :
    ∀ a ∈ stackAddOptions d t g, a.type = "addToStagingStack" := by
  intro a ha
  simp only [stackAddOptions] at ha
  split at ha
  · split at ha
    · split at ha
      · simp at ha
        cases ha
        rfl
      · simp at ha
    · simp at ha
  · simp at ha

theorem buildOptions_types (d : DraggedItem) (t : TargetInfo) (g : DetGameState) :
    ∀ a ∈ buildOptions d t g, a.type = "build" := by
  intro a ha
  simp only [buildOptions] at ha
  split at ha
  · split at ha
    · simp only [List.mem_filterMap] at ha
      obtain ⟨bv, _, hf⟩ := ha
      split at hf
      · cases hf
        rfl
      · simp at hf
    · simp at ha
  · simp at ha

theorem buildAddOptions_types (d : DraggedItem) (t : TargetInfo) (g : DetGameState) :
    ∀ a ∈ buildAddOptions d t g,
      a.type = "addToOwnBuild" ∨ a.type = "addToOpponentBuild" := by
  intro a ha
  simp only [buildAddOptions] at ha
  split at ha
  · split at ha
    · split at ha
      · simp at ha
        cases ha
        left
        rfl
      · split at ha
        · split at ha
          · simp at ha
            cases ha
            right
            rfl
          · simp at ha
        · simp at ha
    · simp at ha
  · simp at ha

/-- The three step conditions of steps 2-4 are mutually exclusive with the
step-5 trail target condition. -/
theorem trailTargetOk_ne (t : TargetInfo) (ht : trailTargetOk t = true) :
    t.type ≠ some "loose" ∧ t.type ≠ some "temporary_stack" ∧ t.type ≠ some "build" := by
  cases htype : t.type with
  | none => simp
  | some s =>
      simp only [trailTargetOk, strTruthy, htype, Bool.not_not, Bool.or_eq_true,
        beq_iff_eq, Option.some.injEq] at ht
      rcases ht with h | h <;> subst h <;> refine ⟨?_, ?_, ?_⟩ <;> simp

theorem buildOptions_nil_of_ne (d : DraggedItem) (t : TargetInfo) (g : DetGameState)
    (h : t.type ≠ some "loose") : buildOptions d t g = [] := by
  have hb : (t.type == some "loose") = false := by
    simpa [beq_iff_eq] using h
  simp [buildOptions, hb]

theorem stackAddOptions_nil_of_ne (d : DraggedItem) (t : TargetInfo) (g : DetGameState)
    (h : t.type ≠ some "temporary_stack") : stackAddOptions d t g = [] := by
  have hb : (t.type == some "temporary_stack") = false := by
    simpa [beq_iff_eq] using h
  simp [stackAddOptions, hb]

theorem buildAddOptions_nil_of_ne (d : DraggedItem) (t : TargetInfo) (g : DetGameState)
    (h : t.type ≠ some "build") : buildAddOptions d t g = [] := by
  have hb : (t.type == some "build") = false := by
    simpa [beq_iff_eq] using h
  simp [buildAddOptions, hb]

/-- With a hand card over the empty table area, no capture available and no
round-1 build restriction, `determineActions` offers exactly the trail. -/
theorem determineActions_trail_offered (d : DraggedItem) (t : TargetInfo) (g : DetGameState)
    (hs : d.source = "hand") (ht : trailTargetOk t = true)
    (hco : captureOptions d g.tableCards = [])
    (hr : (g.round == 1 && hasActiveBuild g.tableCards g.currentPlayer) = false) :
    determineActions d t g =
      { actions := [trailAction d], requiresModal := false, errorMessage := none } := by
  obtain ⟨h2, h3, h4⟩ := trailTargetOk_ne t ht
  have hsrc : (d.source != "hand") = false := by simp [hs]
  simp only [determineActions, hsrc, Bool.false_eq_true, if_false,
    buildOptions_nil_of_ne d t g h2, stackAddOptions_nil_of_ne d t g h3,
    buildAddOptions_nil_of_ne d t g h4, hco, List.append_nil, List.nil_append,
    List.isEmpty_nil, ht, Bool.and_self, Bool.true_and, hr, Bool.not_false, if_true]
  rfl

/-- With a hand card over the empty table area, no capture available but the
round-1 active-build restriction in force, `determineActions` rejects. -/
theorem determineActions_trail_blocked (d : DraggedItem) (t : TargetInfo) (g : DetGameState)
    (hs : d.source = "hand") (ht : trailTargetOk t = true)
    (hco : captureOptions d g.tableCards = [])
    (hr : (g.round == 1 && hasActiveBuild g.tableCards g.currentPlayer) = true) :
    determineActions d t g =
      { actions := [], requiresModal := false,
        errorMessage := some "No valid actions available" } := by
  obtain ⟨h2, h3, h4⟩ := trailTargetOk_ne t ht
  have hsrc : (d.source != "hand") = false := by simp [hs]
  simp only [determineActions, hsrc, Bool.false_eq_true, if_false,
    buildOptions_nil_of_ne d t g h2, stackAddOptions_nil_of_ne d t g h3,
    buildAddOptions_nil_of_ne d t g h4, hco, List.append_nil, List.nil_append,
    List.isEmpty_nil, ht, Bool.and_self, Bool.true_and, hr, Bool.not_true, if_false]
  rfl

/-- With a hand card over the empty table area and at least one capture
available, `determineActions` returns exactly the capture options. -/
theorem determineActions_capture_case (d : DraggedItem) (t : TargetInfo) (g : DetGameState)
    (hs : d.source = "hand") (ht : trailTargetOk t = true)
    (hco : captureOptions d g.tableCards ≠ []) :
    (determineActions d t g).actions = captureOptions d g.tableCards ∧
    (determineActions d t g).errorMessage = none := by
  obtain ⟨h2, h3, h4⟩ := trailTargetOk_ne t ht
  have hsrc : (d.source != "hand") = false := by simp [hs]
  have hie : (captureOptions d g.tableCards).isEmpty = false := by
    cases hcc : captureOptions d g.tableCards with
    | nil => exact absurd hcc hco
    | cons a l => rfl
  simp only [determineActions, hsrc, Bool.false_eq_true, if_false,
    buildOptions_nil_of_ne d t g h2, stackAddOptions_nil_of_ne d t g h3,
    buildAddOptions_nil_of_ne d t g h4, List.append_nil, hie, Bool.false_and, if_neg,
    Bool.false_eq_true]
  rcases packageResult_spec (captureOptions d g.tableCards) with ⟨h1, -⟩ | ⟨-, ha, he⟩
  · exact absurd h1 hco
  · exact ⟨ha, he⟩

/-- C3. Forced capture and first-round build restriction for trailing:
for a hand card dropped on the empty table area, a trail action is offered
exactly when no loose card or build shares the played card's capture value
and it is not the case that the round is 1 and the acting player owns an
active build; whenever a matching loose card or build exists, the result is
non-empty and consists of capture actions only. -/
theorem trail_forced_capture (d : DraggedItem) (t : TargetInfo) (g : DetGameState)
    (hs : d.source = "hand") (ht : trailTargetOk t = true) :
    ((∃ a ∈ (determineActions d t g).actions, a.type = "trail") ↔
      ((∀ tc ∈ g.tableCards, ¬ sharesCaptureValue (rankValue d.card.rank) tc) ∧
        ¬(g.round = 1 ∧ hasActiveBuild g.tableCards g.currentPlayer = true))) ∧
    ((∃ tc ∈ g.tableCards, sharesCaptureValue (rankValue d.card.rank) tc) →
      (determineActions d t g).actions ≠ [] ∧
        ∀ a ∈ (determineActions d t g).actions, a.type = "capture") := by
  by_cases hcap : captureOptions d g.tableCards = []
  · have hno : ∀ tc ∈ g.tableCards, ¬ sharesCaptureValue (rankValue d.card.rank) tc :=
      (captureOptions_eq_nil_iff d g.tableCards).mp hcap
    by_cases hr : (g.round == 1 && hasActiveBuild g.tableCards g.currentPlayer) = true
    · rw [determineActions_trail_blocked d t g hs ht hcap hr]
      constructor
      · constructor
        · rintro ⟨a, ha, -⟩
          simp at ha
        · rintro ⟨-, hnr⟩
          exfalso
          apply hnr
          simpa [Bool.and_eq_true, beq_iff_eq] using hr
      · rintro ⟨tc, htc, hsh⟩
        exact absurd hsh (hno tc htc)
    · have hrf : (g.round == 1 && hasActiveBuild g.tableCards g.currentPlayer) = false :=
        Bool.eq_false_iff.mpr hr
      rw [determineActions_trail_offered d t g hs ht hcap hrf]
      constructor
      · constructor
        · intro _
          refine ⟨hno, ?_⟩
          rintro ⟨h1, hab⟩
          exact hr (by simp [h1, hab])
        · intro _
          exact ⟨trailAction d, by simp, rfl⟩
      · rintro ⟨tc, htc, hsh⟩
        exact absurd hsh (hno tc htc)
  · obtain ⟨hact, -⟩ := determineActions_capture_case d t g hs ht hcap
    have hex : ∃ tc ∈ g.tableCards, sharesCaptureValue (rankValue d.card.rank) tc := by
      by_contra hnone
      push_neg at hnone
      exact hcap ((captureOptions_eq_nil_iff d g.tableCards).mpr hnone)
    constructor
    · constructor
      · rintro ⟨a, ha, hatype⟩
        rw [hact] at ha
        have hc := captureOptions_types d g.tableCards a ha
        exact absurd (hc.symm.trans hatype) (by decide)
      · rintro ⟨hno, -⟩
        obtain ⟨tc, htc, hsh⟩ := hex
        exact absurd hsh (hno tc htc)
    · intro _
      refine ⟨?_, ?_⟩
      · rw [hact]
        exact hcap
      · intro a ha
        rw [hact] at ha
        exact captureOptions_types d g.tableCards a ha

/-- Witness for `trail_forced_capture` on the spec's forced-capture
scenario. -/
theorem trail_forced_capture_witness :
    dragItem4S.source = "hand" ∧ trailTargetOk emptyTarget = true ∧
    (((∃ a ∈ (determineActions dragItem4S emptyTarget forcedCaptureState).actions,
        a.type = "trail") ↔
      ((∀ tc ∈ forcedCaptureState.tableCards,
          ¬ sharesCaptureValue (rankValue dragItem4S.card.rank) tc) ∧
        ¬(forcedCaptureState.round = 1 ∧
          hasActiveBuild forcedCaptureState.tableCards forcedCaptureState.currentPlayer =
            true))) ∧
    ((∃ tc ∈ forcedCaptureState.tableCards,
        sharesCaptureValue (rankValue dragItem4S.card.rank) tc) →
      (determineActions dragItem4S emptyTarget forcedCaptureState).actions ≠ [] ∧
        ∀ a ∈ (determineActions dragItem4S emptyTarget forcedCaptureState).actions,
          a.type = "capture")) :=
  ⟨rfl, rfl, trail_forced_capture dragItem4S emptyTarget forcedCaptureState rfl rfl⟩

/-- C9. `determineActions` is deterministic: two calls on equal dragged
items, target infos and game states return equal results (the embedding is
a pure function of these three arguments, and rejections build a fresh
record rather than touching the state). -/
theorem determineActions_deterministic (d1 d2 : DraggedItem) (t1 t2 : TargetInfo)
    (g1 g2 : DetGameState) (hd : d1 = d2) (ht : t1 = t2) (hg : g1 = g2) :
    determineActions d1 t1 g1 = determineActions d2 t2 g2 := by
  subst hd
  subst ht
  subst hg
  rfl

/-- Witness for `determineActions_deterministic` at a concrete invalid
drop (resubmitting yields the identical rejection). -/
theorem determineActions_deterministic_witness :
    dragItem4S = dragItem4S ∧ emptyTarget = emptyTarget ∧
      forcedCaptureState = forcedCaptureState ∧
      determineActions dragItem4S emptyTarget forcedCaptureState =
        determineActions dragItem4S emptyTarget forcedCaptureState :=
  ⟨rfl, rfl, rfl,
    determineActions_deterministic dragItem4S dragItem4S emptyTarget emptyTarget
      forcedCaptureState forcedCaptureState rfl rfl rfl⟩

/-- C10. `determineActions` reports an error exactly when it offers no
action: every return site pairs a non-null `errorMessage` with an empty
`actions` list and a null `errorMessage` with a non-empty one. -/
theorem determineActions_error_iff_empty (d : DraggedItem) (t : TargetInfo)
    (g : DetGameState) :
    (determineActions d t g).errorMessage ≠ none ↔
      (determineActions d t g).actions = [] := by
  simp only [determineActions]
  split
  · simp
  · exact packageResult_error_iff _

/-- Any action of a `packageResult` comes from the packaged list. -/
theorem packageResult_mem (L : List GameAction) (a : GameAction)
    (ha : a ∈ (packageResult L).actions) : a ∈ L := by
  rcases packageResult_spec L with ⟨h1, h2⟩ | ⟨h1, h2, h3⟩
  · rw [h2] at ha
    simp at ha
  · rwa [h2] at ha

/-- Every action returned by `determineActions` was produced by one of the
five steps. -/
theorem determineActions_actions_sub (d : DraggedItem) (t : TargetInfo) (g : DetGameState)
    (a : GameAction) (ha : a ∈ (determineActions d t g).actions) :
    a ∈ captureOptions d g.tableCards ∨ a ∈ buildOptions d t g ∨
    a ∈ stackAddOptions d t g ∨ a ∈ buildAddOptions d t g ∨ a = trailAction d := by
  simp only [determineActions] at ha
  split at ha
  · simp at ha
  · have hmem := packageResult_mem _ a ha
    split at hmem
    · split at hmem
      · simp only [List.mem_append, List.mem_singleton] at hmem
        tauto
      · simp only [List.mem_append] at hmem
        tauto
    · simp only [List.mem_append] at hmem
      tauto

/-- Every build action of step 2 records a build value at most 10 for which
the hand holds a distinct capturing card while the player owns no build. -/
theorem buildOptions_mem (d : DraggedItem) (t : TargetInfo) (g : DetGameState)
    (a : GameAction) (ha : a ∈ buildOptions d t g) :
    ∃ bv, a.payload.buildValue = some bv ∧ bv ≤ 10 ∧
      (∃ c ∈ g.playerHands.getD g.currentPlayer [],
        rankValue c.rank = bv ∧ ¬(c.rank = d.card.rank ∧ c.suit = d.card.suit)) ∧
      hasActiveBuild g.tableCards g.currentPlayer = false := by
  simp only [buildOptions] at ha
  split at ha
  · split at ha
    · simp only [List.mem_filterMap] at ha
      obtain ⟨bv, -, hf⟩ := ha
      split at hf
      · rename_i hguard
        cases hf
        simp only [Bool.and_eq_true, Bool.not_eq_eq_eq_not, Bool.not_true,
          decide_eq_true_eq] at hguard
        obtain ⟨⟨hcc, heb⟩, hle⟩ := hguard
        simp only [List.any_eq_true, Bool.and_eq_true, beq_iff_eq, Bool.not_eq_eq_eq_not,
          Bool.not_true, Bool.and_eq_false_iff, beq_eq_false_iff_ne] at hcc
        obtain ⟨c, hcmem, hcv, hcd⟩ := hcc
        refine ⟨bv, rfl, hle, ⟨c, hcmem, hcv, ?_⟩, heb⟩
        rintro ⟨hr, hsu⟩
        rcases hcd with h | h
        · exact h hr
        · exact h hsu
      · simp at hf
    · simp at ha
  · simp at ha

/-- Every opponent-build extension of step 4 targets an extendable build on
the table owned by the other player with extended value at most 10. -/
theorem buildAddOptions_opponent (d : DraggedItem) (t : TargetInfo) (g : DetGameState)
    (a : GameAction) (ha : a ∈ buildAddOptions d t g)
    (hty : a.type = "addToOpponentBuild") :
    ∃ b, a.payload.buildToAddTo = some (TableItem.build b) ∧
      TableItem.build b ∈ g.tableCards ∧ b.isExtendable = true ∧
      b.owner ≠ g.currentPlayer ∧ b.value + rankValue d.card.rank ≤ 10 := by
  simp only [buildAddOptions] at ha
  split at ha
  · split at ha
    · rename_i hfind
      split at ha
      · simp only [List.mem_singleton] at ha
        subst ha
        simp at hty
      · split at ha
        · rename_i hext
          split at ha
          · rename_i hle
            simp only [List.mem_singleton] at ha
            subst ha
            rename_i hown
            refine ⟨_, rfl, List.mem_of_find?_eq_some hfind, hext, ?_, hle⟩
            simpa [beq_iff_eq] using hown
          · simp at ha
        · simp at ha
    · simp at ha
  · simp at ha

/-- C5 (amended). A build-create action for value `v` is offered only if
`v` is at most 10, the acting player holds in hand a capturing card of
exactly value `v` distinct (by rank and suit) from the card being played,
and the acting player does not already own an active build. The source
enforces neither a lower bound of 2 on `v` nor the absence of an opposing
build of the same value. -/
theorem build_action_conditions (d : DraggedItem) (t : TargetInfo) (g : DetGameState)
    (v : Nat)
    (h : ∃ a ∈ (determineActions d t g).actions,
      a.type = "build" ∧ a.payload.buildValue = some v) :
    v ≤ 10 ∧
    (∃ c ∈ g.playerHands.getD g.currentPlayer [],
      rankValue c.rank = v ∧ ¬(c.rank = d.card.rank ∧ c.suit = d.card.suit)) ∧
    hasActiveBuild g.tableCards g.currentPlayer = false := by
  obtain ⟨a, ha, hty, hbv⟩ := h
  rcases determineActions_actions_sub d t g a ha with h1 | h1 | h1 | h1 | h1
  · exact absurd ((captureOptions_types _ _ a h1).symm.trans hty) (by decide)
  · obtain ⟨bv, hbv2, hle, hcc, heb⟩ := buildOptions_mem d t g a h1
    obtain rfl : v = bv := by
      have := hbv2.symm.trans hbv
      simpa using this.symm
    exact ⟨hle, hcc, heb⟩
  · exact absurd ((stackAddOptions_types _ _ _ a h1).symm.trans hty) (by decide)
  · rcases buildAddOptions_types d t g a h1 with h2 | h2 <;>
      exact absurd (h2.symm.trans hty) (by decide)
  · rw [h1] at hty
    simp [trailAction] at hty

/-- C5 counterexample: dropping the ace of spades on the loose ace of
hearts offers a build-create action of value 1 even though 1 is below the
claimed lower bound of 2 and the opponent already owns a build of value 1. -/
theorem build_value_one_counterexample :
    (∃ a ∈ (determineActions dragItemAS targetLooseAH aceState).actions,
      a.type = "build" ∧ a.payload.buildValue = some 1) ∧
    ¬(2 ≤ (1 : Nat)) ∧
    (TableItem.build buildAce ∈ aceState.tableCards ∧
      buildAce.owner ≠ aceState.currentPlayer ∧ buildAce.value = 1) := by
  refine ⟨?_, by decide, by decide⟩
  decide

/-- Witness for `build_action_conditions` on the spec's build scenario:
table `[4♥]`, hand `{4♠, 8♦}`, dropping `4♠` on `4♥` offers `Build 8`. -/
theorem build_action_conditions_witness :
    (∃ a ∈ (determineActions dragItem4S (TargetInfo.mk (some "loose") (some c4H) none none)
        forcedCaptureState).actions,
      a.type = "build" ∧ a.payload.buildValue = some 8) ∧
    ((8 : Nat) ≤ 10 ∧
    (∃ c ∈ forcedCaptureState.playerHands.getD forcedCaptureState.currentPlayer [],
      rankValue c.rank = 8 ∧
        ¬(c.rank = dragItem4S.card.rank ∧ c.suit = dragItem4S.card.suit)) ∧
    hasActiveBuild forcedCaptureState.tableCards forcedCaptureState.currentPlayer = false) :=
  ⟨by decide,
    build_action_conditions dragItem4S (TargetInfo.mk (some "loose") (some c4H) none none)
      forcedCaptureState 8 (by decide)⟩

/-- C8 (amended). An `addToOpponentBuild` action is offered only on a build
found on the table, marked extendable, owned by the other player, and whose
value plus the dragged card's value stays at most 10. The source does not
bound the constituent card count. -/
theorem addToOpponentBuild_conditions (d : DraggedItem) (t : TargetInfo) (g : DetGameState)
    (a : GameAction) (ha : a ∈ (determineActions d t g).actions)
    (hty : a.type = "addToOpponentBuild") :
    ∃ b, a.payload.buildToAddTo = some (TableItem.build b) ∧
      TableItem.build b ∈ g.tableCards ∧ b.isExtendable = true ∧
      b.owner ≠ g.currentPlayer ∧ b.value + rankValue d.card.rank ≤ 10 := by
  rcases determineActions_actions_sub d t g a ha with h1 | h1 | h1 | h1 | h1
  · exact absurd ((captureOptions_types _ _ a h1).symm.trans hty) (by decide)
  · exact absurd ((buildOptions_types _ _ _ a h1).symm.trans hty) (by decide)
  · exact absurd ((stackAddOptions_types _ _ _ a h1).symm.trans hty) (by decide)
  · exact buildAddOptions_opponent d t g a h1 hty
  · rw [h1] at hty
    simp [trailAction] at hty

/-- C8 counterexample: the extension of a five-card opponent build is still
offered although the build would then hold six cards, above the claimed cap
of 5. -/
theorem extend_five_card_build_counterexample :
    (∃ a ∈ (determineActions dragItem3S targetBuildFive fiveCardBuildState).actions,
      a.type = "addToOpponentBuild" ∧
        a.payload.buildToAddTo = some (TableItem.build buildFive)) ∧
    ¬(buildFive.cards.length + 1 ≤ 5) := by
  refine ⟨?_, by decide⟩
  decide

/-- Witness for `addToOpponentBuild_conditions` at the concrete five-card
build scenario. -/
theorem addToOpponentBuild_conditions_witness :
    extendAction ∈ (determineActions dragItem3S targetBuildFive fiveCardBuildState).actions ∧
    extendAction.type = "addToOpponentBuild" ∧
    (∃ b, extendAction.payload.buildToAddTo = some (TableItem.build b) ∧
      TableItem.build b ∈ fiveCardBuildState.tableCards ∧ b.isExtendable = true ∧
      b.owner ≠ fiveCardBuildState.currentPlayer ∧
      b.value + rankValue dragItem3S.card.rank ≤ 10) :=
  ⟨by decide, by decide,
    addToOpponentBuild_conditions dragItem3S targetBuildFive fiveCardBuildState
      extendAction (by decide) (by decide)⟩

/-- C4 (amended). `getCapturableCards` returns exactly the table items the
hand card may capture: a loose card exactly when its rank equals the hand
card's rank, a build exactly when its value equals the hand card's value,
and a temporary stack never ("Temporary stacks cannot be captured
directly"), regardless of its declared total. -/
theorem getCapturableCards_mem (tableCards : List TableItem) (handCard : Card)
    (tc : TableItem) :
    tc ∈ getCapturableCards tableCards handCard ↔
      tc ∈ tableCards ∧ capturableBy tc handCard := by
  simp only [getCapturableCards, List.mem_filter]
  apply and_congr_right
  intro _
  cases tc <;> simp [capturableBy]

/-- C4 counterexample: the stack's declared total equals the hand card's
value, yet `getCapturableCards` does not return the stack. -/
theorem temp_stack_not_capturable_counterexample :
    stackFive.totalValue = c5D.value ∧
    getCapturableCards [TableItem.tstack stackFive] c5D = [] :=
  ⟨rfl, rfl⟩

/-- C6 evidence. The exported `handleTrail` of shared-game-logic.js is a
stub: at the failing input it returns the state unchanged — the trailed
card stays in the hand, nothing is appended to the table, and
`currentPlayer` does not flip — although the repository's own
documentation (game-flow-documentation.md, DRAGGING_SYSTEM_COMPLETE.md)
specifies that a trail moves the card hand-to-table and advances the
turn. -/
theorem handleTrail_stub_unchanged :
    handleTrail trailState c4S = trailState ∧
    (handleTrail trailState c4S).playerHands = [[c4S], []] ∧
    (handleTrail trailState c4S).tableCards = [] ∧
    (handleTrail trailState c4S).currentPlayer = 0 :=
  ⟨rfl, rfl, rfl, rfl⟩

/-- C7. `canFinalizeStagingStack` answers `true` only when the stack holds
at least one hand-sourced card and at least one table-sourced card; a stack
missing either kind is never finalizable. -/
theorem canFinalizeStagingStack_only_if (stack : TempStack)
    (h : canFinalizeStagingStack stack = true) :
    (∃ c ∈ stack.cards, c.source = "hand") ∧ (∃ c ∈ stack.cards, c.source = "table") := by
  simp only [canFinalizeStagingStack, Bool.and_eq_true, decide_eq_true_eq] at h
  obtain ⟨h1, h2⟩ := h
  constructor
  · have hne : stack.cards.filter (fun c => c.source == "hand") ≠ [] := by
      intro e
      rw [e] at h1
      simp at h1
    obtain ⟨c, hc⟩ := List.exists_mem_of_ne_nil _ hne
    refine ⟨c, (List.mem_filter.mp hc).1, ?_⟩
    simpa [beq_iff_eq] using (List.mem_filter.mp hc).2
  · have hne : stack.cards.filter (fun c => c.source == "table") ≠ [] := by
      intro e
      rw [e] at h2
      simp at h2
    obtain ⟨c, hc⟩ := List.exists_mem_of_ne_nil _ hne
    refine ⟨c, (List.mem_filter.mp hc).1, ?_⟩
    simpa [beq_iff_eq] using (List.mem_filter.mp hc).2

/-- Witness for `canFinalizeStagingStack_only_if` on the concrete staged
stack with one hand card and one table card. -/
theorem canFinalizeStagingStack_only_if_witness :
    canFinalizeStagingStack stackFive = true ∧
    ((∃ c ∈ stackFive.cards, c.source = "hand") ∧
      (∃ c ∈ stackFive.cards, c.source = "table")) :=
  ⟨by decide, canFinalizeStagingStack_only_if stackFive (by decide)⟩
